import Mathlib

/-!
Verification of the assignment lifecycle engine of the Task-Management-System
repository (NestJS/TypeORM).  The definitions below are a shallow embedding of
`AssignToService` (src/unnamed/part_005), `AssignedTaskRepository`
(src/unnamed/part_003), and the entities in `src/src/assigntask` and
`src/src/work`.  Time is modelled at minute granularity as a (day, minute)
pair; the `dateline` column has SQL type `date`, so deadlines are calendar
days.  Local time and UTC are identified (the service mixes `setHours` and
`toISOString` on the same clock).
-/

namespace TMS

/-- The `WorkStatus` enum from `src/src/work/work.enum.ts`. -/
inductive WorkStatus where
  | PENDING
  | IN_PROGRESS
  | COMPLETED
  | INCOMPLETE
  | APPROVED
  | REJECTED
  | RESUBMITTED
  | LATESUBMIT
deriving DecidableEq, Repr

/-- The string value of each `WorkStatus` member, exactly as declared in
`work.enum.ts`; these are the literals stored in the MySQL enum column. -/
def WorkStatus.toStr : WorkStatus → String
  | .PENDING => "pending"
  | .IN_PROGRESS => "in-progress"
  | .COMPLETED => "completed"
  | .INCOMPLETE => "incomplete"
  | .APPROVED => "approved"
  | .REJECTED => "rejected"
  | .RESUBMITTED => "resubmitted"
  | .LATESUBMIT => "latesubmit"

/-- A point in time: a calendar day index and a minute of that day.
`new Date()` values in the service are compared only at this granularity. -/
structure Instant where
  day : Nat
  minute : Nat
deriving DecidableEq, Repr

/-- Strict order on instants (JavaScript `<` on `Date`). -/
def Instant.lt (a b : Instant) : Prop :=
  a.day < b.day ∨ (a.day = b.day ∧ a.minute < b.minute)

instance (a b : Instant) : Decidable (Instant.lt a b) := by
  unfold Instant.lt; infer_instance

/-- `cutoffTime.setHours(17, 0, 0, 0)`: minute of day of the 17:00 cutoff. -/
def cutoffMinute : Nat := 17 * 60

/-- The fields of `User` (src/src/Users) that the assignment engine reads. -/
structure User where
  id : Nat
  role : String
  email : String
  firstName : String
  lastName : String
deriving DecidableEq, Repr

/-- The fields of `Work` (src/src/work/work.entity.ts) that the engine reads. -/
structure Work where
  id : Nat
  workName : String
deriving DecidableEq, Repr

/-- A row of the `assign_to` table (`AssignToModel`, assign.entity.ts), with
the eager `user`/`work` relations flattened to their ids. -/
structure Assignment where
  id : Nat
  userId : Nat
  workId : Nat
  dateline : Nat
  status : WorkStatus
  description : String
  assignedBy : String
  remarksByAdmin : Option String
deriving DecidableEq, Repr

/-- A row of the `mark_as_done` table (`MarkAsDone`, mark-as-done.entity.ts),
with the `assignment` relation flattened to its id.  `fileName` is the opaque
stored artifact path; the uuid-based path generation is I/O and is abstracted
to the value recorded by the caller. -/
structure Submission where
  id : Nat
  assignmentId : Nat
  submittedDate : Instant
  remarks : String
  fileName : String
deriving DecidableEq, Repr

/-- The persistent state visible to the service: the `assign_to` and
`mark_as_done` tables plus the `user` and `work` tables, together with the
auto-increment counters of the two primary keys. -/
structure Store where
  assignments : List Assignment
  submissions : List Submission
  users : List User
  works : List Work
  nextAssignId : Nat
  nextSubId : Nat
deriving DecidableEq, Repr

/-- `ApiResponse` (src/unnamed/part_006), restricted to the fields the
assignment flows populate. -/
structure ApiResponse where
  success : Bool
  message : String
deriving DecidableEq, Repr

/-- The NestJS exception classes thrown by the service, with their messages.
`internal` stands for the generic rethrow in the `catch` blocks. -/
inductive AppError where
  | notFound (message : String)
  | forbidden (message : String)
  | badRequest (message : String)
  | internal (message : String)
deriving DecidableEq, Repr

instance exceptDecEq {ε α : Type} [DecidableEq ε] [DecidableEq α] : DecidableEq (Except ε α)
  | .ok x, .ok y =>
    if h : x = y then .isTrue (congrArg Except.ok h)
    else .isFalse (fun hc => h (Except.ok.inj hc))
  | .error x, .error y =>
    if h : x = y then .isTrue (congrArg Except.error h)
    else .isFalse (fun hc => h (Except.error.inj hc))
  | .ok _, .error _ => .isFalse (fun hc => Except.noConfusion hc)
  | .error _, .ok _ => .isFalse (fun hc => Except.noConfusion hc)

/-- Whether an `Except` result is a success. -/
def exceptIsOk {ε α : Type} : Except ε α → Bool
  | .ok _ => true
  | .error _ => false

/-- The payload of `AssignTaskDto` (assign.dto.ts); `dateline` is the calendar
day of the parsed deadline (the column has SQL type `date`). -/
structure AssignTaskDto where
  userId : Nat
  workId : Nat
  dateline : Nat
  description : String
deriving DecidableEq, Repr

/-- `assignRepository.findOne({ where: { id } })` /
`findTaskById` (`SELECT * FROM assign_to WHERE id = ?`, first row). -/
def findAssignment (s : Store) (aid : Nat) : Option Assignment :=
  s.assignments.find? fun a => a.id == aid

/-- `assignRepository.save(assignment)` on a loaded entity: update the row
with the entity's primary key. -/
def saveAssignment (a : Assignment) (s : Store) : Store :=
  { s with assignments := s.assignments.map fun b => if b.id == a.id then a else b }

/-- `markAsDoneRepository.save` on a freshly `create`d entity: insert a new
row under the next auto-increment id. -/
def insertSubmission (assignmentId : Nat) (submittedDate : Instant)
    (remarks fileName : String) (s : Store) : Store :=
  { s with
    submissions := s.submissions ++
      [⟨s.nextSubId, assignmentId, submittedDate, remarks, fileName⟩],
    nextSubId := s.nextSubId + 1 }

/-- `markAsDoneRepository.save` on a loaded entity: update the row with the
entity's primary key. -/
def updateSubmission (m : Submission) (s : Store) : Store :=
  { s with submissions := s.submissions.map fun b => if b.id == m.id then m else b }

/-- The row condition of the sweep's bulk UPDATE:
`status = 'in-progress' AND DATE(dateline) = today`. -/
def sweepEligible (now : Instant) (a : Assignment) : Bool :=
  a.status == WorkStatus.IN_PROGRESS && a.dateline == now.day

/-- `AssignToService.updateInProgressAssignmentsPastCutoff` (part_005 lines
57-81): a no-op before the same-day 17:00 cutoff; otherwise one conditional
bulk UPDATE setting every eligible row to `INCOMPLETE`.  Returns the updated
store and `updateResult.affected`. -/
def updateInProgressAssignmentsPastCutoff (now : Instant) (s : Store) : Store × Nat :=
  if Instant.lt now ⟨now.day, cutoffMinute⟩ then
    (s, 0)
  else
    ({ s with assignments := s.assignments.map fun a =>
        if sweepEligible now a then { a with status := WorkStatus.INCOMPLETE } else a },
     (s.assignments.filter (sweepEligible now)).length)

/-- The initial-status computation of `AssignToService.assignTask` (part_005
lines 133-149): `cutoffTime` is 17:00 on the deadline day, and the status is
`INCOMPLETE` exactly when the deadline is not today and `now >= cutoffTime`. -/
def initialStatus (now : Instant) (deadlineDay : Nat) : WorkStatus :=
  if deadlineDay ≠ now.day ∧ ¬ Instant.lt now ⟨deadlineDay, cutoffMinute⟩ then
    WorkStatus.INCOMPLETE
  else
    WorkStatus.IN_PROGRESS

/-- `AssignToService.assignTask` (part_005 lines 93-177).  All recognised
exceptions are caught and surfaced as an `ApiResponse` with `success: false`.
The opportunistic sweep at line 102 runs after the admin check and before the
user/work/uniqueness checks, and its UPDATE is not rolled back when a later
check throws. -/
def assignTask (now : Instant) (adminUser : Option User) (dto : AssignTaskDto)
    (s : Store) : Store × ApiResponse :=
  match adminUser with
  | none => (s, ⟨false, "Only admins can assign tasks"⟩)
  | some admin =>
    if admin.role ≠ "admin" then
      (s, ⟨false, "Only admins can assign tasks"⟩)
    else
      let s1 := (updateInProgressAssignmentsPastCutoff now s).1
      match s1.users.find? (fun u => u.id == dto.userId) with
      | none => (s1, ⟨false, "User not found"⟩)
      | some user =>
        if user.role = "admin" then
          (s1, ⟨false, "Admins cannot be assigned tasks"⟩)
        else
          match s1.works.find? (fun w => w.id == dto.workId) with
          | none => (s1, ⟨false, "Work not found"⟩)
          | some _work =>
            if s1.assignments.any (fun a => a.userId == dto.userId && a.workId == dto.workId) then
              (s1, ⟨false, "This task is already assigned to " ++ user.email⟩)
            else
              let status := initialStatus now dto.dateline
              let a : Assignment :=
                ⟨s1.nextAssignId, dto.userId, dto.workId, dto.dateline, status,
                 dto.description, admin.firstName ++ " " ++ admin.lastName, none⟩
              ({ s1 with assignments := s1.assignments ++ [a],
                         nextAssignId := s1.nextAssignId + 1 },
               ⟨true, "Task assigned to: " ++ user.email ++ " by " ++ admin.firstName
                      ++ " " ++ admin.lastName ++ " with status: " ++ status.toStr⟩)

/-- `AssignToService.createMarkAsDone` (part_005 lines 375-488): the submit
operation.  The final `internal` branch mirrors the generic catch that fires
if none of the three status branches assigned a submission record; it is
unreachable because of the preceding status guard. -/
def createMarkAsDone (now : Instant) (currentUser : User) (assignmentId : Nat)
    (remarks : String) (file : Option String) (s : Store) :
    Store × Except AppError String :=
  match findAssignment s assignmentId with
  | none => (s, .error (.notFound "Assignment not found"))
  | some assignment =>
    if assignment.userId ≠ currentUser.id then
      (s, .error (.forbidden "You are not authorized to mark this assignment as done"))
    else
      match file with
      | none => (s, .error (.badRequest "File is required"))
      | some filePath =>
        if assignment.status ≠ WorkStatus.REJECTED ∧
           assignment.status ≠ WorkStatus.IN_PROGRESS ∧
           assignment.status ≠ WorkStatus.INCOMPLETE then
          (s, .error (.forbidden "You cannot submit this assignment in its current status."))
        else if assignment.status = WorkStatus.REJECTED then
          match s.submissions.find? (fun m => m.assignmentId == assignment.id) with
          | some m0 =>
            let m1 : Submission :=
              { m0 with submittedDate := now, remarks := remarks, fileName := filePath }
            let a1 : Assignment := { assignment with status := WorkStatus.RESUBMITTED }
            (updateSubmission m1 (saveAssignment a1 s), .ok "Task marked as done successfully.")
          | none =>
            let a1 : Assignment := { assignment with status := WorkStatus.RESUBMITTED }
            (insertSubmission assignment.id now remarks filePath (saveAssignment a1 s),
             .ok "Task marked as done successfully.")
        else if assignment.status = WorkStatus.IN_PROGRESS then
          let a1 : Assignment := { assignment with status := WorkStatus.COMPLETED }
          (insertSubmission assignment.id now remarks filePath (saveAssignment a1 s),
           .ok "Task marked as done successfully.")
        else if assignment.status = WorkStatus.INCOMPLETE then
          let a1 : Assignment := { assignment with status := WorkStatus.LATESUBMIT }
          (insertSubmission assignment.id now remarks filePath (saveAssignment a1 s),
           .ok "Task marked as done successfully.")
        else
          (s, .error (.internal "Failed to mark assignment as done. Please try again."))

/-- `validStatuses` of `AssignToService.updateStatus`. -/
def validStatuses : List String := ["APPROVED", "REJECTED"]

/-- `allowedStatuses` of `AssignToService.updateStatus`: the stored enum
strings from which a review is permitted. -/
def allowedStatuses : List String := ["completed", "resubmitted", "latesubmit"]

/-- `AssignToService.updateStatus` (part_005 lines 334-365) composed with
`AssignedTaskRepository.updateStatusById` (part_003 lines 109-114).  The raw
`UPDATE assign_to SET status = ?` writes the literal 'APPROVED'/'REJECTED'
into a MySQL enum column whose members are the lowercase `WorkStatus` values;
MySQL matches enum literals case-insensitively and stores the declared member,
so the written status is the corresponding `WorkStatus` constructor. -/
def updateStatus (currentUser : User) (assignmentId : Nat) (status : String)
    (remarksByAdmin : String) (s : Store) : Store × Except AppError String :=
  if currentUser.role ≠ "admin" then
    (s, .error (.forbidden "Only admin can perform this action."))
  else if status ∉ validStatuses then
    (s, .error (.badRequest "Invalid status. Allowed: APPROVED, REJECTED."))
  else
    match findAssignment s assignmentId with
    | none =>
      (s, .error (.notFound ("Assignment with ID " ++ toString assignmentId ++ " not found.")))
    | some currentTask =>
      if currentTask.status.toStr ∉ allowedStatuses then
        (s, .error (.badRequest
          "Status can only be updated if the current status is \"completed\", \"resubmitted\" or \"latesubmit\"."))
      else
        let newStatus := if status = "APPROVED" then WorkStatus.APPROVED else WorkStatus.REJECTED
        (saveAssignment
          { currentTask with status := newStatus, remarksByAdmin := some remarksByAdmin } s,
         .ok ("Assignment status updated to " ++ status ++ "."))

/-- `VALID_STATUSES` of `AssignToService.getTasksByStatus`. -/
def VALID_STATUSES : List String :=
  ["in-progress", "completed", "incomplete", "approved", "rejected", "resubmitted", "latesubmit"]

/-- Modelled from the spec: `AssignedTaskRepository.findTasksByStatus` is
called at part_005 line 512 but its definition is not among the source files;
per spec section 6 `listByStatus` is a read-only filter of the stored
assignments by their status value. -/
def findTasksByStatus (status : String) (s : Store) : List Assignment :=
  s.assignments.filter fun a => a.status.toStr == status

/-- `AssignToService.getTasksByStatus` (part_005 lines 491-519). -/
def getTasksByStatus (status : String) (user : User) (s : Store) :
    Except AppError (List Assignment) :=
  if user.role ≠ "admin" then
    .error (.forbidden "You do not have permission to access this resource")
  else if status ∉ VALID_STATUSES then
    .error (.badRequest ("Invalid status: " ++ status ++ ". Allowed statuses are: "
      ++ String.intercalate ", " VALID_STATUSES))
  else
    let tasks := findTasksByStatus status s
    if tasks.isEmpty then
      .error (.notFound ("No tasks found with status: " ++ status))
    else
      .ok tasks

/-- A supervisor account used for concrete scenarios. -/
def demoAdmin : User := ⟨1, "admin", "a@x", "Ad", "Min"⟩

/-- An assignee account used for concrete scenarios. -/
def demoUser : User := ⟨2, "user", "u@x", "Jo", "Do"⟩

/-- A catalog work item used for concrete scenarios. -/
def demoWork : Work := ⟨5, "W"⟩

/-- An empty store holding only the two accounts and the work item. -/
def demoStore0 : Store := ⟨[], [], [demoAdmin, demoUser], [demoWork], 1, 1⟩

/-- Scenario state: assignment created with deadline = today (day 0) at 10:00. -/
def c2s1 : Store := (assignTask ⟨0, 600⟩ (some demoAdmin) ⟨2, 5, 0, "task"⟩ demoStore0).1

/-- Scenario state: sweep run at 18:00 the same day. -/
def c2s2 : Store := (updateInProgressAssignmentsPastCutoff ⟨0, 1080⟩ c2s1).1

/-- Scenario step: first submit, at 18:20. -/
def c2r3 : Store × Except AppError String :=
  createMarkAsDone ⟨0, 1100⟩ demoUser 1 "done" (some "f1") c2s2

/-- Scenario step: review rejects with remarks. -/
def c2r4 : Store × Except AppError String :=
  updateStatus demoAdmin 1 "REJECTED" "redo section 2" c2r3.1

/-- Scenario step: second submit, at 20:00. -/
def c2r5 : Store × Except AppError String :=
  createMarkAsDone ⟨0, 1200⟩ demoUser 1 "fixed" (some "f2") c2r4.1

/-- Scenario step: review approves. -/
def c2r6 : Store × Except AppError String :=
  updateStatus demoAdmin 1 "APPROVED" "ok" c2r5.1

/-- Scenario step: a further submit after approval. -/
def c2r7 : Store × Except AppError String :=
  createMarkAsDone ⟨0, 1300⟩ demoUser 1 "again" (some "f3") c2r6.1

/-- The assignment record as stored after the sweep of the concrete scenario. -/
def incAssign : Assignment := ⟨1, 2, 5, 0, WorkStatus.INCOMPLETE, "task", "Ad Min", none⟩

/-- The assignment record as stored after the `LATESUBMIT` submit of the
concrete scenario. -/
def lateAssign : Assignment := ⟨1, 2, 5, 0, WorkStatus.LATESUBMIT, "task", "Ad Min", none⟩

/-- The assignment record as stored after final approval in the concrete
scenario. -/
def aprAssign : Assignment := ⟨1, 2, 5, 0, WorkStatus.APPROVED, "task", "Ad Min", some "ok"⟩

/-- A store holding one `IN_PROGRESS` assignment for (demoUser, demoWork) with
deadline = day 0, as it stands before a duplicate-creation attempt. -/
def dupAssignment : Assignment := ⟨1, 2, 5, 0, WorkStatus.IN_PROGRESS, "d", "Ad Min", none⟩

/-- Store for the duplicate-creation scenarios. -/
def dupStore : Store := ⟨[dupAssignment], [], [demoAdmin, demoUser], [demoWork], 2, 1⟩

/-- Updating every row whose key matches that of a row found by `find?`
replaces the found row in the eyes of a later `find?`, provided the update
still satisfies the search predicate. -/
theorem find_map_update {α : Type} (key : α → Nat) (k : Nat) (upd : α) (p : α → Bool)
    (hp : p upd = true) (l : List α) (m : α) (hk : key m = k) :
    l.find? p = some m →
    (l.map fun b => if key b == k then upd else b).find? p = some upd := by
  induction l with
  | nil => intro hm; simp at hm
  | cons b t ih =>
    intro hm
    rw [List.map_cons]
    by_cases hb : (key b == k) = true
    · rw [if_pos hb, List.find?_cons_of_pos _ hp]
    · rw [if_neg hb]
      by_cases hpb : p b = true
      · rw [List.find?_cons_of_pos _ hpb] at hm
        injection hm with hbm
        subst hbm
        exact absurd (beq_iff_eq.mpr hk) hb
      · rw [List.find?_cons_of_neg _ hpb] at hm
        rw [List.find?_cons_of_neg _ hpb]
        exact ih hm

/-- A conditional map whose condition holds nowhere on the list is the
identity. -/
theorem map_ite_id {α : Type} (p : α → Bool) (g : α → α) (l : List α)
    (h : ∀ a ∈ l, p a = false) :
    (l.map fun a => if p a then g a else a) = l := by
  induction l with
  | nil => rfl
  | cons b t ih =>
    have hb : ¬ p b = true := by
      rw [h b (List.mem_cons_self b t)]; exact Bool.false_ne_true
    rw [List.map_cons, if_neg hb, ih fun a ha => h a (List.mem_cons_of_mem _ ha)]

/-- A filter whose condition holds nowhere on the list is empty. -/
theorem filter_nil_of_false {α : Type} (p : α → Bool) (l : List α)
    (h : ∀ a ∈ l, p a = false) :
    l.filter p = [] := by
  induction l with
  | nil => rfl
  | cons b t ih =>
    have hb : ¬ p b = true := by
      rw [h b (List.mem_cons_self b t)]; exact Bool.false_ne_true
    rw [List.filter_cons, if_neg hb, ih fun a ha => h a (List.mem_cons_of_mem _ ha)]

/-- `any` is preserved by a map that does not change the predicate's value. -/
theorem any_map_pres {α : Type} (f : α → α) (p : α → Bool)
    (h : ∀ a, p (f a) = p a) (l : List α) :
    (l.map f).any p = l.any p := by
  induction l with
  | nil => rfl
  | cons b t ih => rw [List.map_cons, List.any_cons, List.any_cons, h, ih]

/-- Mapping a projection over a map that preserves that projection. -/
theorem map_pres_map {α β : Type} (f : α → α) (g : α → β)
    (h : ∀ a, g (f a) = g a) (l : List α) :
    (l.map f).map g = l.map g := by
  induction l with
  | nil => rfl
  | cons b t ih => rw [List.map_cons, List.map_cons, List.map_cons, h, ih]

/-- The sweep never touches the `user` table. -/
theorem sweep_users (now : Instant) (s : Store) :
    (updateInProgressAssignmentsPastCutoff now s).1.users = s.users := by
  unfold updateInProgressAssignmentsPastCutoff; split <;> rfl

/-- The sweep never touches the `work` table. -/
theorem sweep_works (now : Instant) (s : Store) :
    (updateInProgressAssignmentsPastCutoff now s).1.works = s.works := by
  unfold updateInProgressAssignmentsPastCutoff; split <;> rfl

/-- The row written back by the sweep's UPDATE keeps its status out of the
sweep's own WHERE condition. -/
theorem sweep_fun_not_eligible (now : Instant) (a : Assignment) :
    sweepEligible now
      (if sweepEligible now a then { a with status := WorkStatus.INCOMPLETE } else a) = false := by
  by_cases h : sweepEligible now a = true
  · rw [if_pos h]
    have hne : (WorkStatus.INCOMPLETE == WorkStatus.IN_PROGRESS) = false := by decide
    simp [sweepEligible, hne]
  · rw [if_neg h]
    exact Bool.eq_false_iff.mpr h

/-- Claim C3: the submit transition table.  For a call by the assignment's
assignee with an artifact: from `IN_PROGRESS` the status becomes `COMPLETED`
and a new submission row is appended; from `INCOMPLETE` it becomes
`LATESUBMIT` with a new row; from `REJECTED` it becomes `RESUBMITTED` and the
existing submission row for the assignment, when present, is updated in place
(same primary key, row count unchanged — never duplicated), a new row being
created only when none exists. -/
theorem c3_submit_transition_table (now : Instant) (u : User) (aid : Nat)
    (remarks fileRef : String) (s : Store) (a : Assignment)
    (hfind : findAssignment s aid = some a) (hown : a.userId = u.id) :
    (a.status = WorkStatus.IN_PROGRESS →
      findAssignment (createMarkAsDone now u aid remarks (some fileRef) s).1 aid
        = some { a with status := WorkStatus.COMPLETED } ∧
      (createMarkAsDone now u aid remarks (some fileRef) s).1.submissions
        = s.submissions ++ [⟨s.nextSubId, a.id, now, remarks, fileRef⟩] ∧
      exceptIsOk (createMarkAsDone now u aid remarks (some fileRef) s).2 = true) ∧
    (a.status = WorkStatus.INCOMPLETE →
      findAssignment (createMarkAsDone now u aid remarks (some fileRef) s).1 aid
        = some { a with status := WorkStatus.LATESUBMIT } ∧
      (createMarkAsDone now u aid remarks (some fileRef) s).1.submissions
        = s.submissions ++ [⟨s.nextSubId, a.id, now, remarks, fileRef⟩] ∧
      exceptIsOk (createMarkAsDone now u aid remarks (some fileRef) s).2 = true) ∧
    (a.status = WorkStatus.REJECTED →
      findAssignment (createMarkAsDone now u aid remarks (some fileRef) s).1 aid
        = some { a with status := WorkStatus.RESUBMITTED } ∧
      exceptIsOk (createMarkAsDone now u aid remarks (some fileRef) s).2 = true ∧
      (∀ m0, s.submissions.find? (fun m => m.assignmentId == a.id) = some m0 →
        (createMarkAsDone now u aid remarks (some fileRef) s).1.submissions.length
          = s.submissions.length ∧
        (createMarkAsDone now u aid remarks (some fileRef) s).1.submissions.find?
            (fun m => m.assignmentId == a.id)
          = some { m0 with submittedDate := now, remarks := remarks, fileName := fileRef }) ∧
      (s.submissions.find? (fun m => m.assignmentId == a.id) = none →
        (createMarkAsDone now u aid remarks (some fileRef) s).1.submissions
          = s.submissions ++ [⟨s.nextSubId, a.id, now, remarks, fileRef⟩])) := by
  have hown' : ¬ a.userId ≠ u.id := fun hne => hne hown
  have hfind' : s.assignments.find? (fun x => x.id == aid) = some a := hfind
  have haid : (a.id == aid) = true :=
    List.find?_some (p := fun x : Assignment => x.id == aid) hfind'
  refine ⟨fun hst => ?_, fun hst => ?_, fun hst => ?_⟩
  · have hr : createMarkAsDone now u aid remarks (some fileRef) s
        = (insertSubmission a.id now remarks fileRef
            (saveAssignment { a with status := WorkStatus.COMPLETED } s),
          .ok "Task marked as done successfully.") := by
      simp only [createMarkAsDone, hfind, if_neg hown']
      rw [if_neg (fun hc => hc.2.1 hst),
          if_neg (fun he => WorkStatus.noConfusion (hst.symm.trans he)),
          if_pos hst]
    rw [hr]
    exact ⟨find_map_update (fun x : Assignment => x.id) a.id
        { a with status := WorkStatus.COMPLETED } (fun x : Assignment => x.id == aid)
        haid s.assignments a rfl hfind', rfl, rfl⟩
  · have hr : createMarkAsDone now u aid remarks (some fileRef) s
        = (insertSubmission a.id now remarks fileRef
            (saveAssignment { a with status := WorkStatus.LATESUBMIT } s),
          .ok "Task marked as done successfully.") := by
      simp only [createMarkAsDone, hfind, if_neg hown']
      rw [if_neg (fun hc => hc.2.2 hst),
          if_neg (fun he => WorkStatus.noConfusion (hst.symm.trans he)),
          if_neg (fun he => WorkStatus.noConfusion (hst.symm.trans he)),
          if_pos hst]
    rw [hr]
    exact ⟨find_map_update (fun x : Assignment => x.id) a.id
        { a with status := WorkStatus.LATESUBMIT } (fun x : Assignment => x.id == aid)
        haid s.assignments a rfl hfind', rfl, rfl⟩
  · cases hsub : s.submissions.find? (fun m => m.assignmentId == a.id) with
    | some m0 =>
      have hsubid : (m0.assignmentId == a.id) = true :=
        List.find?_some (p := fun m : Submission => m.assignmentId == a.id) hsub
      have hr : createMarkAsDone now u aid remarks (some fileRef) s
          = (updateSubmission
              { m0 with submittedDate := now, remarks := remarks, fileName := fileRef }
              (saveAssignment { a with status := WorkStatus.RESUBMITTED } s),
            .ok "Task marked as done successfully.") := by
        simp only [createMarkAsDone, hfind, if_neg hown']
        rw [if_neg (fun hc => hc.1 hst), if_pos hst, hsub]
      rw [hr]
      refine ⟨find_map_update (fun x : Assignment => x.id) a.id
          { a with status := WorkStatus.RESUBMITTED } (fun x : Assignment => x.id == aid)
          haid s.assignments a rfl hfind', rfl,
        fun m1 hm1 => ?_, fun hnone => ?_⟩
      · have hm01 : m0 = m1 := by injection hm1
        subst hm01
        refine ⟨by simp [updateSubmission, saveAssignment], ?_⟩
        exact find_map_update (fun x : Submission => x.id) m0.id
          { m0 with submittedDate := now, remarks := remarks, fileName := fileRef }
          (fun m : Submission => m.assignmentId == a.id) hsubid s.submissions m0 rfl hsub
      · exact Option.noConfusion hnone
    | none =>
      have hr : createMarkAsDone now u aid remarks (some fileRef) s
          = (insertSubmission a.id now remarks fileRef
              (saveAssignment { a with status := WorkStatus.RESUBMITTED } s),
            .ok "Task marked as done successfully.") := by
        simp only [createMarkAsDone, hfind, if_neg hown']
        rw [if_neg (fun hc => hc.1 hst), if_pos hst, hsub]
      rw [hr]
      refine ⟨find_map_update (fun x : Assignment => x.id) a.id
          { a with status := WorkStatus.RESUBMITTED } (fun x : Assignment => x.id == aid)
          haid s.assignments a rfl hfind', rfl,
        fun m1 hm1 => Option.noConfusion hm1, fun _ => rfl⟩

/-- Witness for C3: applied to the concrete scenario store after the sweep,
where the assignment is `INCOMPLETE`. -/
theorem c3_submit_transition_table_witness :
    findAssignment (createMarkAsDone ⟨0, 1100⟩ demoUser 1 "done" (some "f1") c2s2).1 1
      = some { incAssign with status := WorkStatus.LATESUBMIT } ∧
    (createMarkAsDone ⟨0, 1100⟩ demoUser 1 "done" (some "f1") c2s2).1.submissions
      = c2s2.submissions ++ [⟨c2s2.nextSubId, incAssign.id, ⟨0, 1100⟩, "done", "f1"⟩] ∧
    exceptIsOk (createMarkAsDone ⟨0, 1100⟩ demoUser 1 "done" (some "f1") c2s2).2 = true :=
  (c3_submit_transition_table ⟨0, 1100⟩ demoUser 1 "done" "f1" c2s2 incAssign
    (by decide) (by decide)).2.1 (by decide)

/-- A status whose stored string is in `allowedStatuses` is `COMPLETED`,
`RESUBMITTED` or `LATESUBMIT`. -/
theorem status_of_allowed (st : WorkStatus) (h : st.toStr ∈ allowedStatuses) :
    st = WorkStatus.COMPLETED ∨ st = WorkStatus.RESUBMITTED ∨ st = WorkStatus.LATESUBMIT := by
  cases st
  case COMPLETED => exact Or.inl rfl
  case RESUBMITTED => exact Or.inr (Or.inl rfl)
  case LATESUBMIT => exact Or.inr (Or.inr rfl)
  all_goals exact absurd h (by decide)

/-- Claim C4: review validation and effect.  With an admin caller and an
existing assignment: a decision other than `APPROVED`/`REJECTED` fails with
the invalid-status validation error; with a valid decision and current status
in {`COMPLETED`, `RESUBMITTED`, `LATESUBMIT`} the call succeeds, the stored
status becomes the decision value and `remarksByAdmin` is set to the supplied
remarks. -/
theorem c4_review_validation_and_effect (u : User) (aid : Nat) (decision radmin : String)
    (s : Store) (t : Assignment)
    (hadmin : u.role = "admin") (hfind : findAssignment s aid = some t) :
    (decision ∉ validStatuses →
      updateStatus u aid decision radmin s
        = (s, .error (.badRequest "Invalid status. Allowed: APPROVED, REJECTED."))) ∧
    (decision ∈ validStatuses →
      t.status = WorkStatus.COMPLETED ∨ t.status = WorkStatus.RESUBMITTED ∨
        t.status = WorkStatus.LATESUBMIT →
      exceptIsOk (updateStatus u aid decision radmin s).2 = true ∧
      findAssignment (updateStatus u aid decision radmin s).1 aid
        = some { t with
                 status := if decision = "APPROVED" then WorkStatus.APPROVED
                           else WorkStatus.REJECTED,
                 remarksByAdmin := some radmin }) := by
  have hadmin' : ¬ u.role ≠ "admin" := fun h => h hadmin
  have hfind' : s.assignments.find? (fun x => x.id == aid) = some t := hfind
  have haid : (t.id == aid) = true :=
    List.find?_some (p := fun x : Assignment => x.id == aid) hfind'
  refine ⟨fun hdec => ?_, fun hdec hallow => ?_⟩
  · simp only [updateStatus, if_neg hadmin']
    rw [if_pos hdec]
  · have hmem : t.status.toStr ∈ allowedStatuses := by
      rcases hallow with h | h | h <;> rw [h] <;> decide
    have hr : updateStatus u aid decision radmin s
        = (saveAssignment
            { t with
              status := if decision = "APPROVED" then WorkStatus.APPROVED
                        else WorkStatus.REJECTED,
              remarksByAdmin := some radmin } s,
          .ok ("Assignment status updated to " ++ decision ++ ".")) := by
      simp only [updateStatus, if_neg hadmin', hfind]
      rw [if_neg (fun hc => hc hdec), if_neg (fun hc => hc hmem)]
    rw [hr]
    refine ⟨rfl, ?_⟩
    exact find_map_update (fun x : Assignment => x.id) t.id
      { t with
        status := if decision = "APPROVED" then WorkStatus.APPROVED else WorkStatus.REJECTED,
        remarksByAdmin := some radmin }
      (fun x : Assignment => x.id == aid) haid s.assignments t rfl hfind'

/-- Witness for C4: rejecting the concrete `LATESUBMIT` assignment of the
scenario. -/
theorem c4_review_validation_and_effect_witness :
    exceptIsOk (updateStatus demoAdmin 1 "REJECTED" "redo section 2" c2r3.1).2 = true ∧
    findAssignment (updateStatus demoAdmin 1 "REJECTED" "redo section 2" c2r3.1).1 1
      = some { lateAssign with
               status := if ("REJECTED" : String) = "APPROVED" then WorkStatus.APPROVED
                         else WorkStatus.REJECTED,
               remarksByAdmin := some "redo section 2" } :=
  (c4_review_validation_and_effect demoAdmin 1 "REJECTED" "redo section 2" c2r3.1 lateAssign
    rfl (by decide)).2 (by decide) (by decide)

/-- Claim C5: submit is blocked from `COMPLETED`, `LATESUBMIT`, `RESUBMITTED`
and `APPROVED`.  From those states `createMarkAsDone` never succeeds for any
caller, and for the assignment's own assignee (with an artifact supplied) it
fails with exactly the transition-not-allowed signal, whatever the caller's
role. -/
theorem c5_submit_blocked_states (now : Instant) (aid : Nat) (remarks fileRef : String)
    (s : Store) (a : Assignment)
    (hfind : findAssignment s aid = some a)
    (hst : a.status = WorkStatus.COMPLETED ∨ a.status = WorkStatus.LATESUBMIT ∨
           a.status = WorkStatus.RESUBMITTED ∨ a.status = WorkStatus.APPROVED) :
    (∀ (u : User) (file : Option String) (msg : String),
      (createMarkAsDone now u aid remarks file s).2 ≠ Except.ok msg) ∧
    (∀ u : User, a.userId = u.id →
      createMarkAsDone now u aid remarks (some fileRef) s
        = (s, .error (.forbidden "You cannot submit this assignment in its current status."))) := by
  have hguard : a.status ≠ WorkStatus.REJECTED ∧ a.status ≠ WorkStatus.IN_PROGRESS ∧
      a.status ≠ WorkStatus.INCOMPLETE := by
    rcases hst with h | h | h | h <;> rw [h] <;> exact by decide
  refine ⟨fun u file msg hok => ?_, fun u hown => ?_⟩
  · simp only [createMarkAsDone, hfind] at hok
    by_cases h1 : a.userId ≠ u.id
    · rw [if_pos h1] at hok
      exact Except.noConfusion hok
    · rw [if_neg h1] at hok
      cases file with
      | none => exact Except.noConfusion hok
      | some f =>
        dsimp only at hok
        rw [if_pos hguard] at hok
        exact Except.noConfusion hok
  · have hown' : ¬ a.userId ≠ u.id := fun hne => hne hown
    simp only [createMarkAsDone, hfind, if_neg hown']
    rw [if_pos hguard]

/-- Witness for C5: a further submit on the approved assignment of the
concrete scenario. -/
theorem c5_submit_blocked_states_witness :
    createMarkAsDone ⟨0, 1300⟩ demoUser 1 "again" (some "f3") c2r6.1
      = (c2r6.1, .error (.forbidden "You cannot submit this assignment in its current status.")) :=
  (c5_submit_blocked_states ⟨0, 1300⟩ 1 "again" "f3" c2r6.1 aprAssign
    (by decide) (by decide)).2 demoUser (by decide)

/-- Claim C6: review is blocked outside {`COMPLETED`, `RESUBMITTED`,
`LATESUBMIT`}.  With an admin caller, an existing assignment and a valid
decision, a review from `IN_PROGRESS`, `INCOMPLETE`, `REJECTED` or `APPROVED`
fails with the transition-not-allowed signal and leaves the store untouched;
and whenever a review succeeds the prior status was `COMPLETED`,
`RESUBMITTED` or `LATESUBMIT`. -/
theorem c6_review_blocked_states (u : User) (aid : Nat) (decision radmin : String)
    (s : Store) (t : Assignment)
    (hadmin : u.role = "admin") (hfind : findAssignment s aid = some t) :
    (decision ∈ validStatuses →
      (t.status = WorkStatus.IN_PROGRESS ∨ t.status = WorkStatus.INCOMPLETE ∨
       t.status = WorkStatus.REJECTED ∨ t.status = WorkStatus.APPROVED) →
      updateStatus u aid decision radmin s
        = (s, .error (.badRequest
            "Status can only be updated if the current status is \"completed\", \"resubmitted\" or \"latesubmit\"."))) ∧
    (∀ msg, (updateStatus u aid decision radmin s).2 = Except.ok msg →
      t.status = WorkStatus.COMPLETED ∨ t.status = WorkStatus.RESUBMITTED ∨
        t.status = WorkStatus.LATESUBMIT) := by
  have hadmin' : ¬ u.role ≠ "admin" := fun h => h hadmin
  refine ⟨fun hdec hblock => ?_, fun msg hok => ?_⟩
  · have hmem : t.status.toStr ∉ allowedStatuses := by
      rcases hblock with h | h | h | h <;> rw [h] <;> decide
    simp only [updateStatus, if_neg hadmin', hfind]
    rw [if_neg (fun hc => hc hdec), if_pos hmem]
  · simp only [updateStatus, if_neg hadmin', hfind] at hok
    by_cases hdec : decision ∈ validStatuses
    · rw [if_neg (fun hc => hc hdec)] at hok
      by_cases hmem : t.status.toStr ∈ allowedStatuses
      · exact status_of_allowed t.status hmem
      · rw [if_pos hmem] at hok
        exact Except.noConfusion hok
    · rw [if_pos hdec] at hok
      exact Except.noConfusion hok

/-- Witness for C6: reviewing the concrete `INCOMPLETE` assignment fails with
the transition-not-allowed signal. -/
theorem c6_review_blocked_states_witness :
    updateStatus demoAdmin 1 "APPROVED" "x" c2s2
      = (c2s2, .error (.badRequest
          "Status can only be updated if the current status is \"completed\", \"resubmitted\" or \"latesubmit\".")) :=
  (c6_review_blocked_states demoAdmin 1 "APPROVED" "x" c2s2 incAssign
    rfl (by decide)).1 (by decide) (by decide)

/-- Claim C1: the claim predicts initial status `INCOMPLETE` when the deadline
is today and creation time is past the 17:00 cutoff; evaluating the service's
initial-status computation (part_005 lines 133-149) at deadline day 0 and
creation time 18:00 of day 0 yields `IN_PROGRESS`, because the guard
`!isDeadlineToday && now >= cutoffTime` excludes the deadline-today case. -/
theorem c1_initial_status_today_past_cutoff_evaluates_in_progress :
    initialStatus ⟨0, 1080⟩ 0 = WorkStatus.IN_PROGRESS ∧
    initialStatus ⟨0, 1080⟩ 0 ≠ WorkStatus.INCOMPLETE := by decide

/-- Claim C2: the end-to-end scenario.  An assignment created with deadline =
today at 10:00 is `IN_PROGRESS`; the sweep at 18:00 moves it to `INCOMPLETE`;
submit yields `LATESUBMIT` with exactly one submission; review `REJECTED`
yields `REJECTED` with `remarksByAdmin` set; a second submit yields
`RESUBMITTED` with the same submission row updated in place (same id, still
one row); review `APPROVED` yields `APPROVED`; a further submit fails with the
transition-not-allowed signal and leaves the store unchanged. -/
theorem c2_end_to_end_scenario :
    findAssignment c2s1 1 = some ⟨1, 2, 5, 0, .IN_PROGRESS, "task", "Ad Min", none⟩ ∧
    findAssignment c2s2 1 = some ⟨1, 2, 5, 0, .INCOMPLETE, "task", "Ad Min", none⟩ ∧
    exceptIsOk c2r3.2 = true ∧
    findAssignment c2r3.1 1 = some ⟨1, 2, 5, 0, .LATESUBMIT, "task", "Ad Min", none⟩ ∧
    c2r3.1.submissions = [⟨1, 1, ⟨0, 1100⟩, "done", "f1"⟩] ∧
    exceptIsOk c2r4.2 = true ∧
    findAssignment c2r4.1 1
      = some ⟨1, 2, 5, 0, .REJECTED, "task", "Ad Min", some "redo section 2"⟩ ∧
    exceptIsOk c2r5.2 = true ∧
    findAssignment c2r5.1 1
      = some ⟨1, 2, 5, 0, .RESUBMITTED, "task", "Ad Min", some "redo section 2"⟩ ∧
    c2r5.1.submissions = [⟨1, 1, ⟨0, 1200⟩, "fixed", "f2"⟩] ∧
    exceptIsOk c2r6.2 = true ∧
    findAssignment c2r6.1 1 = some ⟨1, 2, 5, 0, .APPROVED, "task", "Ad Min", some "ok"⟩ ∧
    c2r7 = (c2r6.1, .error (.forbidden "You cannot submit this assignment in its current status.")) := by
  decide

/-- Claim C9, counterexample: a `createAssignment` request that is rejected
with the duplicate-pair conflict nevertheless changes the stored status of the
targeted (conflicting) assignment, because the opportunistic sweep at part_005
line 102 runs and commits before the uniqueness check throws.  Concretely: the
existing assignment for the pair is `IN_PROGRESS` with deadline = today, the
call happens at 18:00, the call fails, and the stored status is now
`INCOMPLETE`. -/
theorem c9_failed_create_mutates_existing_status :
    (assignTask ⟨0, 1080⟩ (some demoAdmin) ⟨2, 5, 3, "d2"⟩ dupStore).2.success = false ∧
    findAssignment dupStore 1 = some dupAssignment ∧
    dupAssignment.status = WorkStatus.IN_PROGRESS ∧
    findAssignment (assignTask ⟨0, 1080⟩ (some demoAdmin) ⟨2, 5, 3, "d2"⟩ dupStore).1 1
      = some { dupAssignment with status := WorkStatus.INCOMPLETE } := by decide

/-- The sweep's UPDATE touches only the status column, so the set of
(userId, workId) pairs present is unchanged. -/
theorem sweep_any_pair (now : Instant) (s : Store) (uid wid : Nat) :
    (updateInProgressAssignmentsPastCutoff now s).1.assignments.any
      (fun a => a.userId == uid && a.workId == wid)
    = s.assignments.any (fun a => a.userId == uid && a.workId == wid) := by
  unfold updateInProgressAssignmentsPastCutoff
  split
  · rfl
  · refine any_map_pres _ _ (fun a => ?_) s.assignments
    by_cases h : sweepEligible now a = true
    · rw [if_pos h]
    · rw [if_neg h]

/-- The sweep's UPDATE touches only the status column, so the list of row ids
is unchanged. -/
theorem sweep_assignment_ids (now : Instant) (s : Store) :
    (updateInProgressAssignmentsPastCutoff now s).1.assignments.map (fun a => a.id)
      = s.assignments.map (fun a => a.id) := by
  unfold updateInProgressAssignmentsPastCutoff
  split
  · rfl
  · refine map_pres_map _ _ (fun a => ?_) s.assignments
    by_cases h : sweepEligible now a = true
    · rw [if_pos h]
    · rw [if_neg h]

/-- Claim C7: duplicate creation is rejected.  With an admin caller, an
existing non-admin assignee and an existing work item, a creation request for
an (assignee, workItem) pair that already has an assignment — whatever that
assignment's current status — returns the already-assigned conflict failure,
and no new assignment row is stored (the row ids are exactly those present
before the call). -/
theorem c7_duplicate_assignment_conflict (now : Instant) (admin target : User) (w : Work)
    (dto : AssignTaskDto) (s : Store)
    (hadmin : admin.role = "admin")
    (huser : s.users.find? (fun x => x.id == dto.userId) = some target)
    (htrole : target.role ≠ "admin")
    (hwork : s.works.find? (fun x => x.id == dto.workId) = some w)
    (hdup : s.assignments.any (fun a => a.userId == dto.userId && a.workId == dto.workId)
      = true) :
    assignTask now (some admin) dto s
      = ((updateInProgressAssignmentsPastCutoff now s).1,
         ⟨false, "This task is already assigned to " ++ target.email⟩) ∧
    (assignTask now (some admin) dto s).1.assignments.map (fun a => a.id)
      = s.assignments.map (fun a => a.id) := by
  have hadmin' : ¬ admin.role ≠ "admin" := fun h => h hadmin
  have h1 : assignTask now (some admin) dto s
      = ((updateInProgressAssignmentsPastCutoff now s).1,
         ⟨false, "This task is already assigned to " ++ target.email⟩) := by
    simp only [assignTask, if_neg hadmin']
    rw [sweep_users, huser]
    dsimp only
    rw [if_neg htrole, sweep_works, hwork]
    dsimp only
    rw [sweep_any_pair, if_pos hdup]
  exact ⟨h1, by rw [h1]; exact sweep_assignment_ids now s⟩

/-- Witness for C7: the concrete duplicate-pair store. -/
theorem c7_duplicate_assignment_conflict_witness :
    assignTask ⟨0, 1080⟩ (some demoAdmin) ⟨2, 5, 3, "d2"⟩ dupStore
      = ((updateInProgressAssignmentsPastCutoff ⟨0, 1080⟩ dupStore).1,
         ⟨false, "This task is already assigned to " ++ demoUser.email⟩) ∧
    (assignTask ⟨0, 1080⟩ (some demoAdmin) ⟨2, 5, 3, "d2"⟩ dupStore).1.assignments.map
        (fun a => a.id)
      = dupStore.assignments.map (fun a => a.id) :=
  c7_duplicate_assignment_conflict ⟨0, 1080⟩ demoAdmin demoUser demoWork ⟨2, 5, 3, "d2"⟩
    dupStore rfl (by decide) (by decide) (by decide) (by decide)

/-- Claim C8: the sweep is idempotent.  Running it twice in immediate
succession gives the same store as running it once, and the second run reports
zero affected rows; before the 17:00 cutoff it is a no-op; and every
assignment outside its WHERE condition (still `IN_PROGRESS` with today's
deadline) survives unchanged. -/
theorem c8_sweep_idempotent (now : Instant) (s : Store) :
    updateInProgressAssignmentsPastCutoff now (updateInProgressAssignmentsPastCutoff now s).1
      = ((updateInProgressAssignmentsPastCutoff now s).1, 0) ∧
    (Instant.lt now ⟨now.day, cutoffMinute⟩ →
      updateInProgressAssignmentsPastCutoff now s = (s, 0)) ∧
    (∀ a ∈ s.assignments, sweepEligible now a = false →
      a ∈ (updateInProgressAssignmentsPastCutoff now s).1.assignments) := by
  by_cases h : Instant.lt now ⟨now.day, cutoffMinute⟩
  · refine ⟨?_, fun _ => ?_, fun a ha _ => ?_⟩
    · simp only [updateInProgressAssignmentsPastCutoff, if_pos h]
    · simp only [updateInProgressAssignmentsPastCutoff, if_pos h]
    · simp only [updateInProgressAssignmentsPastCutoff, if_pos h]
      exact ha
  · have hall : ∀ a ∈ (updateInProgressAssignmentsPastCutoff now s).1.assignments,
        sweepEligible now a = false := by
      simp only [updateInProgressAssignmentsPastCutoff, if_neg h]
      intro a ha
      rcases List.mem_map.mp ha with ⟨b, _, hb⟩
      rw [← hb]
      exact sweep_fun_not_eligible now b
    refine ⟨?_, fun hlt => absurd hlt h, fun a ha hne => ?_⟩
    · have h1 : (updateInProgressAssignmentsPastCutoff now s).1.assignments.map
          (fun a => if sweepEligible now a then { a with status := WorkStatus.INCOMPLETE } else a)
            = (updateInProgressAssignmentsPastCutoff now s).1.assignments :=
        map_ite_id _ _ _ hall
      have h2 : (updateInProgressAssignmentsPastCutoff now s).1.assignments.filter
          (sweepEligible now) = [] :=
        filter_nil_of_false _ _ hall
      conv_lhs => rw [updateInProgressAssignmentsPastCutoff]
      rw [if_neg h, h1, h2]
      rfl
    · simp only [updateInProgressAssignmentsPastCutoff, if_neg h]
      exact List.mem_map.mpr ⟨a, ha, by rw [if_neg (Bool.eq_false_iff.mp hne)]⟩

/-- Witness for C8 at a concrete pre-cutoff instant. -/
theorem c8_sweep_idempotent_witness :
    updateInProgressAssignmentsPastCutoff ⟨0, 500⟩ dupStore = (dupStore, 0) :=
  (c8_sweep_idempotent ⟨0, 500⟩ dupStore).2.1 (by decide)

/-- Every branch of the submit operation either leaves the store untouched or
returns a success. -/
theorem createMarkAsDone_cases (now : Instant) (u : User) (aid : Nat)
    (remarks : String) (file : Option String) (s : Store) :
    (createMarkAsDone now u aid remarks file s).1 = s ∨
    exceptIsOk (createMarkAsDone now u aid remarks file s).2 = true := by
  unfold createMarkAsDone
  repeat' split
  all_goals first | (left; rfl) | (right; rfl)

/-- Every branch of the review operation either leaves the store untouched or
returns a success. -/
theorem updateStatus_cases (u : User) (aid : Nat) (decision radmin : String) (s : Store) :
    (updateStatus u aid decision radmin s).1 = s ∨
    exceptIsOk (updateStatus u aid decision radmin s).2 = true := by
  unfold updateStatus
  repeat' split
  all_goals first | (left; rfl) | (right; rfl)

/-- Every branch of the creation operation leaves the store as it was, leaves
it as the opportunistic sweep left it, or reports success. -/
theorem assignTask_cases (now : Instant) (adminUser : Option User) (dto : AssignTaskDto)
    (s : Store) :
    (assignTask now adminUser dto s).1 = s ∨
    (assignTask now adminUser dto s).1 = (updateInProgressAssignmentsPastCutoff now s).1 ∨
    (assignTask now adminUser dto s).2.success = true := by
  simp only [assignTask]
  repeat' split
  all_goals first | (left; rfl) | (right; left; rfl) | (right; right; rfl)

/-- Claim C9, amended: a failed `submitWork` or `reviewSubmission` leaves the
whole store — in particular the targeted assignment's status and submission —
exactly as it was; a failed `createAssignment` stores nothing new and leaves
the store either untouched or exactly as its opportunistic pre-creation sweep
left it (which can move `IN_PROGRESS` assignments with today's deadline,
including the conflicting one, to `INCOMPLETE`). -/
theorem c9_error_state_preservation (now : Instant) (u : User) (aid : Nat)
    (remarks decision radmin : String) (file : Option String)
    (adminUser : Option User) (dto : AssignTaskDto) (s : Store) :
    (∀ e, (createMarkAsDone now u aid remarks file s).2 = Except.error e →
      (createMarkAsDone now u aid remarks file s).1 = s) ∧
    (∀ e, (updateStatus u aid decision radmin s).2 = Except.error e →
      (updateStatus u aid decision radmin s).1 = s) ∧
    ((assignTask now adminUser dto s).2.success = false →
      (assignTask now adminUser dto s).1 = s ∨
      (assignTask now adminUser dto s).1
        = (updateInProgressAssignmentsPastCutoff now s).1) := by
  refine ⟨fun e he => ?_, fun e he => ?_, fun hf => ?_⟩
  · rcases createMarkAsDone_cases now u aid remarks file s with h | h
    · exact h
    · rw [he] at h
      exact Bool.noConfusion h
  · rcases updateStatus_cases u aid decision radmin s with h | h
    · exact h
    · rw [he] at h
      exact Bool.noConfusion h
  · rcases assignTask_cases now adminUser dto s with h | h | h
    · exact Or.inl h
    · exact Or.inr h
    · rw [hf] at h
      exact Bool.noConfusion h

/-- Witness for C9: a submit against a missing assignment, a review by a
non-admin, and the concrete failed duplicate creation, each preserving the
store up to the documented sweep effect. -/
theorem c9_error_state_preservation_witness :
    (createMarkAsDone ⟨0, 900⟩ demoUser 99 "r" none demoStore0).1 = demoStore0 ∧
    (updateStatus demoUser 1 "APPROVED" "x" demoStore0).1 = demoStore0 ∧
    ((assignTask ⟨0, 1080⟩ (some demoAdmin) ⟨2, 5, 3, "d2"⟩ dupStore).1 = dupStore ∨
      (assignTask ⟨0, 1080⟩ (some demoAdmin) ⟨2, 5, 3, "d2"⟩ dupStore).1
        = (updateInProgressAssignmentsPastCutoff ⟨0, 1080⟩ dupStore).1) :=
  ⟨(c9_error_state_preservation ⟨0, 900⟩ demoUser 99 "r" "d" "x" none none ⟨2, 5, 3, "d2"⟩
      demoStore0).1 (.notFound "Assignment not found") (by decide),
   (c9_error_state_preservation ⟨0, 900⟩ demoUser 1 "r" "APPROVED" "x" none none ⟨2, 5, 3, "d2"⟩
      demoStore0).2.1 (.forbidden "Only admin can perform this action.") (by decide),
   (c9_error_state_preservation ⟨0, 1080⟩ demoUser 1 "r" "APPROVED" "x" none
      (some demoAdmin) ⟨2, 5, 3, "d2"⟩ dupStore).2.2 (by decide)⟩

/-- Claim C10: the by-status query.  With an admin caller: any status string
outside the seven lifecycle values — in particular the schema default
'pending' — is rejected with the validation error, uniformly in the store
(the store is never consulted); a successful result can therefore never
contain an assignment whose stored status is `PENDING`; and a valid status
matching no stored assignment yields the not-found error rather than an empty
success. -/
theorem c10_status_query_validation (u : User) (status : String) (s : Store)
    (hadmin : u.role = "admin") :
    (status ∉ VALID_STATUSES →
      getTasksByStatus status u s
        = .error (.badRequest ("Invalid status: " ++ status ++ ". Allowed statuses are: "
            ++ String.intercalate ", " VALID_STATUSES))) ∧
    (getTasksByStatus "pending" u s
      = .error (.badRequest ("Invalid status: " ++ "pending" ++ ". Allowed statuses are: "
          ++ String.intercalate ", " VALID_STATUSES))) ∧
    (∀ tasks, getTasksByStatus status u s = Except.ok tasks →
      ∀ a ∈ tasks, a.status ≠ WorkStatus.PENDING) ∧
    (status ∈ VALID_STATUSES → findTasksByStatus status s = [] →
      getTasksByStatus status u s
        = .error (.notFound ("No tasks found with status: " ++ status))) := by
  have hadmin' : ¬ u.role ≠ "admin" := fun h => h hadmin
  refine ⟨fun hinv => ?_, ?_, fun tasks hok a ha hpend => ?_, fun hv hempty => ?_⟩
  · simp only [getTasksByStatus, if_neg hadmin']
    rw [if_pos hinv]
  · simp only [getTasksByStatus, if_neg hadmin']
    rw [if_pos (show ("pending" : String) ∉ VALID_STATUSES by decide)]
  · simp only [getTasksByStatus, if_neg hadmin'] at hok
    by_cases hv : status ∈ VALID_STATUSES
    · rw [if_neg (fun hc => hc hv)] at hok
      by_cases he : (findTasksByStatus status s).isEmpty = true
      · rw [if_pos he] at hok
        exact Except.noConfusion hok
      · rw [if_neg he] at hok
        have htasks : findTasksByStatus status s = tasks := by injection hok
        rw [← htasks] at ha
        have hmem := List.mem_filter.mp ha
        have hstat : (a.status.toStr == status) = true := hmem.2
        rw [hpend] at hstat
        have hps : status = "pending" := (beq_iff_eq.mp hstat).symm
        rw [hps] at hv
        exact absurd hv (by decide)
    · rw [if_pos hv] at hok
      exact Except.noConfusion hok
  · simp only [getTasksByStatus, if_neg hadmin']
    rw [if_neg (fun hc => hc hv), hempty]
    rfl

/-- Witness for C10: querying `latesubmit` over the empty demo store yields
the not-found error. -/
theorem c10_status_query_validation_witness :
    getTasksByStatus "latesubmit" demoAdmin demoStore0
      = .error (.notFound ("No tasks found with status: " ++ "latesubmit")) :=
  (c10_status_query_validation demoAdmin "latesubmit" demoStore0 rfl).2.2.2
    (by decide) (by decide)

end TMS
